import Mathlib

/-!
Verification of the core budget/date-range aggregation and reconciliation logic
of the expense-tracker application.

The definitions below are a shallow embedding of the JavaScript source:

* `Dashboard.jsx` — the grouping effect (kind partition and per-category
  accumulation), `loadRange` (bulk query with inclusive UTC bounds, order by
  date descending, limit 1000), `loadTotalBudget` / `saveBudget` (budget
  ledger), the realtime INSERT/UPDATE/DELETE handlers and the optimistic
  `expense-added` handler, `deleteCategory`, and the `progress` / `balance`
  computations.
* `TripsTab.jsx` — `loadTripsWithSummary` (the `spentPct` computation) and
  `setTripBudget`.
* `groqCategorizer` — `manualCategorizeByKeyword`, the deterministic keyword
  fallback, together with the amount/kind/description extraction of
  `ExpenseInput.handleSubmit`.

Monetary amounts are rationals (JS numbers used for exact decimal arithmetic
in the source's ranges).  Timestamps are encoded as a single natural number
key that is strictly monotone in the ISO-8601 string order the source
compares with (year, month, day, hour, minute, second, millisecond in mixed
radix), so `≤` on keys coincides with the source's string / Date
comparisons on well-formed timestamps.
-/

namespace ExpenseTracker

/-- Kind of a monetary record: an ordinary expense, money borrowed, or money
lended, the three values the application stores in the `kind` column. -/
inductive Kind where
  | expense
  | borrowed
  | lended
deriving DecidableEq, Repr

/-- Expense record as selected by `loadRange` and held in the `expenses`
collection: identifier, owner, optional trip reference, amount, kind,
optional category reference, note and timestamp. -/
structure Exp where
  id : Nat
  user_id : Nat
  trip_id : Option Nat
  amount : ℚ
  kind : Kind
  category_id : Option Nat
  note : String
  date : Nat
deriving DecidableEq, Repr

/-- Category row: identifier and display name. -/
structure Cat where
  id : Nat
  name : String
deriving DecidableEq, Repr

/-! ### Aggregation (Dashboard grouping effect, Dashboard.jsx lines 257-296) -/

/-- One iteration of the kind-partition loop of the grouping effect: `lended`
amounts accumulate into the first total, `borrowed` into the second, and all
other rows are appended to the category-expense list. -/
def splitStep (acc : ℚ × ℚ × List Exp) (r : Exp) : ℚ × ℚ × List Exp :=
  match r.kind with
  | Kind.lended => (acc.1 + r.amount, acc.2.1, acc.2.2)
  | Kind.borrowed => (acc.1, acc.2.1 + r.amount, acc.2.2)
  | Kind.expense => (acc.1, acc.2.1, acc.2.2 ++ [r])

/-- Kind partition of the expense list, as the loop
`for (const row of expenses) ...` computes it. -/
def splitKinds (rows : List Exp) : ℚ × ℚ × List Exp :=
  rows.foldl splitStep (0, 0, [])

/-- Scalar total of `lended` rows (`lendedTotal` state). -/
def lendedTotal (rows : List Exp) : ℚ := (splitKinds rows).1

/-- Scalar total of `borrowed` rows (`borrowedTotal` state). -/
def borrowedTotal (rows : List Exp) : ℚ := (splitKinds rows).2.1

/-- Rows that reach category grouping (`catExpenses` in the source). -/
def catExpenses (rows : List Exp) : List Exp := (splitKinds rows).2.2

/-- Group key of a row: `row.category_id || 'uncategorized'`; `none` is the
sentinel uncategorized key. -/
def groupKey (r : Exp) : Option Nat := r.category_id

/-- Accumulate `a` into the entry of key `k` of the association map,
inserting a fresh entry when the key is absent (`catMap[key]` updates). -/
def addToMap (m : List (Option Nat × ℚ)) (k : Option Nat) (a : ℚ) :
    List (Option Nat × ℚ) :=
  match m with
  | [] => [(k, a)]
  | (k', t) :: rest =>
      if k' = k then (k', t + a) :: rest else (k', t) :: addToMap rest k a

/-- Per-category running totals over the category-expense rows. -/
def buildCatMap (rows : List Exp) : List (Option Nat × ℚ) :=
  rows.foldl (fun m r => addToMap m (groupKey r) r.amount) []

/-- Mirrors "ensure all categories exist in map (even with 0)": every known
category id absent from the map is appended with a zero total. -/
def ensureCats (m : List (Option Nat × ℚ)) (cats : List Cat) :
    List (Option Nat × ℚ) :=
  cats.foldl
    (fun m c => if m.any (fun e => e.1 = some c.id) then m else m ++ [(some c.id, 0)]) m

/-- The `grouped` state: category totals of the expense-kind rows, with every
known category present. -/
def grouped (rows : List Exp) (cats : List Cat) : List (Option Nat × ℚ) :=
  ensureCats (buildCatMap (catExpenses rows)) cats

/-- Sum of the totals of a category map. -/
def sumVals (m : List (Option Nat × ℚ)) : ℚ := (m.map Prod.snd).sum

/-- Grand total spent: `Object.values(grouped).reduce((s, g) => s + g.total, 0)`
(Dashboard.jsx line 535). -/
def totalSpent (rows : List Exp) (cats : List Cat) : ℚ :=
  sumVals (grouped rows cats)

/-- Sum of the amounts of the rows of one kind. -/
def amountsOfKind (k : Kind) (rows : List Exp) : ℚ :=
  ((rows.filter fun r => r.kind = k).map (·.amount)).sum

theorem splitKinds_foldl (rows : List Exp) : ∀ acc : ℚ × ℚ × List Exp,
    rows.foldl splitStep acc =
      (acc.1 + amountsOfKind Kind.lended rows,
       acc.2.1 + amountsOfKind Kind.borrowed rows,
       acc.2.2 ++ rows.filter fun r => r.kind = Kind.expense) := by
  induction rows with
  | nil => intro acc; simp [amountsOfKind]
  | cons r rest ih =>
      intro acc
      cases hk : r.kind <;>
        simp [splitStep, hk, ih, amountsOfKind, List.filter_cons, add_assoc]

theorem sumVals_addToMap (k : Option Nat) (a : ℚ) :
    ∀ m : List (Option Nat × ℚ), sumVals (addToMap m k a) = sumVals m + a := by
  intro m
  induction m with
  | nil => simp [addToMap, sumVals]
  | cons e rest ih =>
      obtain ⟨k', t⟩ := e
      by_cases h : k' = k
      · simp [addToMap, h, sumVals]; ring
      · simp only [addToMap, h, if_false, sumVals, List.map_cons, List.sum_cons,
          sumVals] at *
        rw [ih]; ring

theorem sumVals_buildAux (rows : List Exp) : ∀ m : List (Option Nat × ℚ),
    sumVals (rows.foldl (fun m r => addToMap m (groupKey r) r.amount) m) =
      sumVals m + ((rows.map (·.amount)).sum) := by
  induction rows with
  | nil => intro m; simp
  | cons r rest ih =>
      intro m
      simp [ih, sumVals_addToMap, add_assoc]

theorem sumVals_ensureCats (cats : List Cat) : ∀ m : List (Option Nat × ℚ),
    sumVals (ensureCats m cats) = sumVals m := by
  induction cats with
  | nil => intro m; simp [ensureCats]
  | cons c rest ih =>
      intro m
      have step : ensureCats m (c :: rest) =
          ensureCats
            (if (m.any fun e => e.1 = some c.id) then m else m ++ [(some c.id, 0)])
            rest := rfl
      rw [step, ih]
      by_cases h : (m.any fun e => e.1 = some c.id) = true
      · rw [if_pos h]
      · rw [if_neg h]; simp [sumVals]

theorem totalSpent_eq_amounts (rows : List Exp) (cats : List Cat) :
    totalSpent rows cats = amountsOfKind Kind.expense rows := by
  have h := splitKinds_foldl rows (0, 0, [])
  have hce : catExpenses rows = (rows.filter fun r => r.kind = Kind.expense) := by
    simp [catExpenses, splitKinds, h]
  unfold totalSpent grouped buildCatMap
  rw [hce, sumVals_ensureCats, sumVals_buildAux]
  simp [sumVals, amountsOfKind]

/-- C1: records of kind `borrowed` and `lended` are summed into two separate
scalar totals and excluded from category grouping; the remaining
(`expense`-kind) records are grouped by category identifier (with the
uncategorized sentinel for a null reference), and the sum of all group totals
(including the uncategorized group and the padded zero-total categories)
equals the sum of all `expense`-kind amounts; the borrowed and lended totals
are exactly the sums over their own kinds, disjoint from that sum. -/
theorem aggregation_partition_complete (rows : List Exp) (cats : List Cat) :
    lendedTotal rows = amountsOfKind Kind.lended rows ∧
    borrowedTotal rows = amountsOfKind Kind.borrowed rows ∧
    catExpenses rows = (rows.filter fun r => r.kind = Kind.expense) ∧
    totalSpent rows cats = amountsOfKind Kind.expense rows := by
  have h := splitKinds_foldl rows (0, 0, [])
  refine ⟨?_, ?_, ?_, ?_⟩
  · simp [lendedTotal, splitKinds, h]
  · simp [borrowedTotal, splitKinds, h]
  · simp [catExpenses, splitKinds, h]
  · exact totalSpent_eq_amounts rows cats

/-! ### Budget ledger (Dashboard `saveBudget` / `loadTotalBudget`,
TripsTab `setTripBudget`) -/

/-- Budget row: owner, context discriminator (`none` = casual, `some t` = trip
`t`), month bucket, and amount.  Months are numbered `year * 12 + (month - 1)`
so numeric order and equality coincide with the `'yyyy-MM'` strings of the
source. -/
structure BudgetRow where
  user_id : Nat
  trip_id : Option Nat
  month : Nat
  amount : ℚ
deriving DecidableEq, Repr

/-- Month-bucket enumeration `getMonthsInRange`: every calendar month from the
start date's month through the end date's month inclusive (the JS loop pushes
one `'yyyy-MM'` per month start not after the end month's start). -/
def getMonthsInRange (s e : Nat) : List Nat :=
  if s ≤ e then (List.range (e - s + 1)).map (s + ·) else []

/-- Row filter shared by `loadTotalBudget`'s select and `saveBudget`'s delete:
owner matches, context matches (`eq`/`is null`), month is in the bucket set. -/
def budgetMatch (u : Nat) (c : Option Nat) (months : List Nat) (r : BudgetRow) : Bool :=
  decide (r.user_id = u ∧ r.trip_id = c ∧ r.month ∈ months)

/-- The `saveBudget` mutation: delete every row matching (owner, context,
months), then insert one row per month bucket with the given amount. -/
def setBudget (db : List BudgetRow) (u : Nat) (c : Option Nat) (months : List Nat)
    (amount : ℚ) : List BudgetRow :=
  (db.filter fun r => ! budgetMatch u c months r) ++
    months.map fun m => { user_id := u, trip_id := c, month := m, amount := amount }

/-- The `loadTotalBudget` aggregation: sum the amounts of the rows matching
(owner, context, months). -/
def getPeriodBudget (db : List BudgetRow) (u : Nat) (c : Option Nat)
    (months : List Nat) : ℚ :=
  ((db.filter (budgetMatch u c months)).map (·.amount)).sum

theorem getPeriodBudget_append (l1 l2 : List BudgetRow) (u : Nat) (c : Option Nat)
    (ms : List Nat) :
    getPeriodBudget (l1 ++ l2) u c ms =
      getPeriodBudget l1 u c ms + getPeriodBudget l2 u c ms := by
  simp [getPeriodBudget, List.filter_append]

theorem getPeriodBudget_eq_zero (l : List BudgetRow) (u : Nat) (c : Option Nat)
    (ms : List Nat)
    (h : ∀ r ∈ l, r.user_id = u → r.trip_id = c → r.month ∉ ms) :
    getPeriodBudget l u c ms = 0 := by
  unfold getPeriodBudget
  have hf : l.filter (budgetMatch u c ms) = [] := by
    refine List.filter_eq_nil_iff.mpr ?_
    intro r hr
    simp only [budgetMatch, decide_eq_true_eq, not_and]
    intro hu hc
    exact h r hr hu hc
  rw [hf]; simp

theorem mem_filter_not_match {u : Nat} {c : Option Nat} {ms : List Nat}
    {r : BudgetRow} {db : List BudgetRow}
    (hr : r ∈ db.filter fun r => ! budgetMatch u c ms r) :
    r.user_id = u → r.trip_id = c → r.month ∉ ms := by
  rw [List.mem_filter] at hr
  intro hu hc hm
  have h2 := hr.2
  simp [budgetMatch, hu, hc, hm] at h2

/-- C2: `setBudget` replaces rather than merges.  After setting amount `A` for
months `{M1, M2}` the period budget over those months is `2A`; after then
setting amount `B` for `{M2, M3}` the period budget over `{M1, M2, M3}` is
`A + B + B`, with `M1` retaining its original `A`. -/
theorem budget_replace_scenario (db : List BudgetRow) (u : Nat) (c : Option Nat)
    (A B : ℚ) (M1 M2 M3 : Nat) (h12 : M1 ≠ M2) (h13 : M1 ≠ M3) (_h23 : M2 ≠ M3) :
    getPeriodBudget (setBudget db u c [M1, M2] A) u c [M1, M2] = A + A ∧
    getPeriodBudget (setBudget (setBudget db u c [M1, M2] A) u c [M2, M3] B) u c
        [M1, M2, M3] = A + B + B ∧
    getPeriodBudget (setBudget (setBudget db u c [M1, M2] A) u c [M2, M3] B) u c
        [M1] = A := by
  have e1 : setBudget db u c [M1, M2] A =
      (db.filter fun r => ! budgetMatch u c [M1, M2] r) ++
        [⟨u, c, M1, A⟩, ⟨u, c, M2, A⟩] := rfl
  have hF1 : ∀ r ∈ (db.filter fun r => ! budgetMatch u c [M1, M2] r),
      r.user_id = u → r.trip_id = c → r.month ∉ ([M1, M2] : List Nat) :=
    fun r hr => mem_filter_not_match hr
  have c1 : getPeriodBudget (setBudget db u c [M1, M2] A) u c [M1, M2] = A + A := by
    rw [e1, getPeriodBudget_append, getPeriodBudget_eq_zero _ _ _ _ hF1]
    simp [getPeriodBudget, budgetMatch]
  have e2 : setBudget (setBudget db u c [M1, M2] A) u c [M2, M3] B =
      ((setBudget db u c [M1, M2] A).filter fun r => ! budgetMatch u c [M2, M3] r) ++
        [⟨u, c, M2, B⟩, ⟨u, c, M3, B⟩] := rfl
  have e3 : ((setBudget db u c [M1, M2] A).filter fun r => ! budgetMatch u c [M2, M3] r) =
      ((db.filter fun r => ! budgetMatch u c [M1, M2] r).filter
          fun r => ! budgetMatch u c [M2, M3] r) ++ [⟨u, c, M1, A⟩] := by
    rw [e1, List.filter_append]
    congr 1
    simp [List.filter_cons, budgetMatch, h12, h13]
  have hF2 : ∀ r ∈ ((db.filter fun r => ! budgetMatch u c [M1, M2] r).filter
      fun r => ! budgetMatch u c [M2, M3] r),
      r.user_id = u → r.trip_id = c → r.month ∉ ([M1, M2, M3] : List Nat) := by
    intro r hr hu hc hm
    rw [List.mem_filter] at hr
    have h1 := mem_filter_not_match hr.1 hu hc
    have h2 : r.month ∉ ([M2, M3] : List Nat) := by
      have hb := hr.2
      simp only [budgetMatch, Bool.not_eq_eq_eq_not, Bool.not_true,
        decide_eq_false_iff_not, not_and] at hb
      exact hb hu hc
    simp only [List.mem_cons, List.not_mem_nil, or_false] at hm h1 h2
    tauto
  have hF2one : ∀ r ∈ ((db.filter fun r => ! budgetMatch u c [M1, M2] r).filter
      fun r => ! budgetMatch u c [M2, M3] r),
      r.user_id = u → r.trip_id = c → r.month ∉ ([M1] : List Nat) := by
    intro r hr hu hc hm
    refine hF2 r hr hu hc ?_
    simp only [List.mem_cons, List.not_mem_nil, or_false] at hm ⊢
    tauto
  refine ⟨c1, ?_, ?_⟩
  · rw [e2, e3, getPeriodBudget_append, getPeriodBudget_append,
      getPeriodBudget_eq_zero _ _ _ _ hF2]
    simp [getPeriodBudget, budgetMatch]
    ring
  · rw [e2, e3, getPeriodBudget_append, getPeriodBudget_append,
      getPeriodBudget_eq_zero _ _ _ _ hF2one]
    have hs : getPeriodBudget [⟨u, c, M2, B⟩, ⟨u, c, M3, B⟩] u c [M1] = 0 := by
      simp [getPeriodBudget, budgetMatch, Ne.symm h12, Ne.symm h13]
    rw [hs]
    simp [getPeriodBudget, budgetMatch]

/-- Witness for C2 at a concrete input. -/
theorem budget_replace_scenario_witness :
    getPeriodBudget (setBudget [] 1 none [0, 1] 5) 1 none [0, 1] = 10 ∧
    getPeriodBudget (setBudget (setBudget [] 1 none [0, 1] 5) 1 none [1, 2] 7) 1 none
        [0, 1, 2] = 19 ∧
    getPeriodBudget (setBudget (setBudget [] 1 none [0, 1] 5) 1 none [1, 2] 7) 1 none
        [0] = 5 := by
  have h := budget_replace_scenario [] 1 none 5 7 0 1 2
    (by decide) (by decide) (by decide)
  refine ⟨?_, ?_, h.2.2⟩
  · rw [h.1]; norm_num
  · rw [h.2.1]; norm_num

/-! ### Trip budget month derivation (C7): Dashboard `saveBudget` vs
TripsTab `setTripBudget` -/

/-- Month buckets touched by the Dashboard `saveBudget`: for a trip context
the full trip start-to-end month span, for the casual context the months of
the active view range.  Arguments are month indexes of the respective
dates. -/
def saveBudgetMonths (trip : Option (Nat × Nat)) (viewStart viewEnd : Nat) : List Nat :=
  match trip with
  | some (ts, te) => getMonthsInRange ts te
  | none => getMonthsInRange viewStart viewEnd

/-- Replace the first row satisfying `p` by `f` of it, modelling an update
keyed to the unique row id returned by the existence query. -/
def updateFirst (p : BudgetRow → Bool) (f : BudgetRow → BudgetRow) :
    List BudgetRow → List BudgetRow
  | [] => []
  | r :: rest => if p r then f r :: rest else r :: updateFirst p f rest

/-- The TripsTab `setTripBudget` mutation: if a budget row for (owner, trip)
exists, update its amount in place; otherwise insert a single row whose month
bucket is the month of the trip's start date only. -/
def setTripBudget (db : List BudgetRow) (u tid : Nat) (tripStartMonth : Nat)
    (amount : ℚ) : List BudgetRow :=
  if db.any (fun r => decide (r.user_id = u ∧ r.trip_id = some tid)) then
    updateFirst (fun r => decide (r.user_id = u ∧ r.trip_id = some tid))
      (fun r => { r with amount := amount }) db
  else
    db ++ [{ user_id := u, trip_id := some tid, month := tripStartMonth, amount := amount }]

/-- Counterexample to C7: for a trip spanning two calendar months
(months 24302 = 2025-03 and 24303 = 2025-04), the TripsTab budget-save path
inserts a single row keyed to the start month only, not one budget row per
month of the whole trip duration. -/
theorem trip_budget_months_counterexample :
    ((setTripBudget [] 1 7 24302 500).map (·.month) = [24302]) ∧
    getMonthsInRange 24302 24303 = [24302, 24303] ∧
    ((setTripBudget [] 1 7 24302 500).map (·.month) ≠ getMonthsInRange 24302 24303) := by
  refine ⟨?_, ?_, ?_⟩ <;> decide

/-- C7 amended: the Dashboard budget-save path derives a trip's month buckets
from the trip's full start-to-end span, unaffected by the viewed date
sub-range, and derives casual month buckets from the active view range; the
TripsTab budget-save path instead touches only the single month bucket of the
trip's start date (inserting one row, or updating an existing row in
place). -/
theorem trip_budget_month_derivation (v1 v2 v1' v2' ts te u tid : Nat) (a : ℚ) :
    saveBudgetMonths (some (ts, te)) v1 v2 = getMonthsInRange ts te ∧
    saveBudgetMonths (some (ts, te)) v1 v2 = saveBudgetMonths (some (ts, te)) v1' v2' ∧
    saveBudgetMonths none v1 v2 = getMonthsInRange v1 v2 ∧
    (setTripBudget [] u tid ts a).map (·.month) = [ts] := by
  refine ⟨rfl, rfl, rfl, ?_⟩
  simp [setTripBudget]

/-! ### Budget usage percentage (C3): Dashboard `progress` / `balance`,
TripsTab `spentPct` -/

/-- The Dashboard `progress` computation:
`totalBudget > 0 ? (totalSpent / totalBudget) * 100 : 0`. -/
def progress (totalBudget totalSpent : ℚ) : ℚ :=
  if totalBudget > 0 then totalSpent / totalBudget * 100 else 0

/-- The Dashboard `balance` computation: period budget minus total spent. -/
def balance (totalBudget totalSpent : ℚ) : ℚ := totalBudget - totalSpent

/-- The Dashboard progress-bar fill width: `Math.min(progress, 100)`. -/
def progressBarWidth (p : ℚ) : ℚ := min p 100

/-- The TripsTab `spentPct` computation of `loadTripsWithSummary`:
`budget > 0 ? Math.min(100, (spent / budget) * 100) : 0`; the capped value is
also what the trip card's percentage text reports. -/
def tripSpentPct (budget spent : ℚ) : ℚ :=
  if budget > 0 then min 100 (spent / budget * 100) else 0

/-- Counterexample to C3: in the trips view, budget 1000 with 1200 spent
reports a usage percentage of 100, not 120 — the reported percentage itself
is capped, not only a progress-bar fill. -/
theorem usage_capping_counterexample :
    tripSpentPct 1000 1200 = 100 ∧ tripSpentPct 1000 1200 ≠ 120 := by
  constructor <;> norm_num [tripSpentPct]

/-- C3 amended: the usage percentage is 0 when the budget is not positive and
`spent / budget × 100` otherwise; the Dashboard reports it uncapped and caps
only the progress-bar fill at 100 (budget 1000 with 1200 spent gives balance
-200, reported usage 120, bar fill 100), while the trips list caps the
percentage itself at 100 before reporting it. -/
theorem usage_percentage_amended (b s : ℚ) :
    (b > 0 → progress b s = s / b * 100) ∧
    (¬ b > 0 → progress b s = 0) ∧
    progress 1000 1200 = 120 ∧
    balance 1000 1200 = -200 ∧
    progressBarWidth (progress 1000 1200) = 100 ∧
    tripSpentPct 1000 1200 = 100 ∧
    (b > 0 → tripSpentPct b s = min 100 (s / b * 100)) := by
  refine ⟨fun h => if_pos h, fun h => if_neg h, ?_, ?_, ?_, ?_, fun h => if_pos h⟩
  · norm_num [progress]
  · norm_num [balance]
  · norm_num [progress, progressBarWidth]
  · norm_num [tripSpentPct]

/-- Witness for C3's amended theorem at concrete inputs. -/
theorem usage_percentage_amended_witness :
    progress 2 5 = 250 ∧ progress 0 5 = 0 := by
  constructor
  · rw [(usage_percentage_amended 2 5).1 (by norm_num)]; norm_num
  · rw [(usage_percentage_amended 0 5).2.1 (by norm_num)]

/-! ### Date-range bounds (C6): `loadRange` bounds and the realtime range
checks.

Timestamps are the mixed-radix key of their ISO-8601 components; on the
well-formed, fixed-width ISO strings the source builds with `Date.UTC` and
compares with string / Date comparison, string order and key order agree. -/

/-- Mixed-radix key of a UTC timestamp (year, month 1-12, day, hour, minute,
second, millisecond); strictly monotone in ISO-8601 string order. -/
def tsKey (y m d h mi s ms : Nat) : Nat :=
  (((((y * 100 + m) * 100 + d) * 100 + h) * 100 + mi) * 100 + s) * 1000 + ms

/-- Start bound of `loadRange`: `Date.UTC(startY, startM - 1, startD, 0, 0, 0)`,
the start date at 00:00:00.000 UTC. -/
def rangeStartKey (y m d : Nat) : Nat := tsKey y m d 0 0 0 0

/-- End bound of `loadRange`: `Date.UTC(endY, endM - 1, endD, 23, 59, 59, 999)`,
the end date at 23:59:59.999 UTC. -/
def rangeEndKey (y m d : Nat) : Nat := tsKey y m d 23 59 59 999

/-- Membership test of the bulk query:
`.gte('date', startIso).lte('date', endIso)`. -/
def inRangeQuery (startKey endKey t : Nat) : Bool :=
  decide (startKey ≤ t ∧ t ≤ endKey)

/-- Membership test of the realtime INSERT/UPDATE handlers:
`newIso >= startIsoRef.current && newIso <= endIsoRef.current`. -/
def inRangeRealtime (startKey endKey t : Nat) : Bool :=
  decide (startKey ≤ t) && decide (t ≤ endKey)

/-- C6: for a date range `[S, E]` the view bounds are the closed interval from
S at 00:00:00.000 to E at 23:59:59.999 UTC: a record timestamped exactly at
either bound is included by the bulk query and by the notification range
check, a record before S's midnight or after E's 23:59:59.999 is excluded,
and both checks agree with closed-interval membership. -/
theorem range_inclusivity (Sy Sm Sd Ey Em Ed : Nat)
    (hse : rangeStartKey Sy Sm Sd ≤ rangeStartKey Ey Em Ed) :
    inRangeQuery (rangeStartKey Sy Sm Sd) (rangeEndKey Ey Em Ed)
        (rangeStartKey Sy Sm Sd) = true ∧
    inRangeQuery (rangeStartKey Sy Sm Sd) (rangeEndKey Ey Em Ed)
        (rangeEndKey Ey Em Ed) = true ∧
    (∀ t, t < rangeStartKey Sy Sm Sd →
      inRangeQuery (rangeStartKey Sy Sm Sd) (rangeEndKey Ey Em Ed) t = false) ∧
    (∀ t, rangeEndKey Ey Em Ed < t →
      inRangeQuery (rangeStartKey Sy Sm Sd) (rangeEndKey Ey Em Ed) t = false) ∧
    (∀ t, inRangeRealtime (rangeStartKey Sy Sm Sd) (rangeEndKey Ey Em Ed) t =
      inRangeQuery (rangeStartKey Sy Sm Sd) (rangeEndKey Ey Em Ed) t) ∧
    (∀ t, inRangeQuery (rangeStartKey Sy Sm Sd) (rangeEndKey Ey Em Ed) t = true ↔
      rangeStartKey Sy Sm Sd ≤ t ∧ t ≤ rangeEndKey Ey Em Ed) := by
  have hkey : rangeStartKey Ey Em Ed ≤ rangeEndKey Ey Em Ed := by
    unfold rangeStartKey rangeEndKey tsKey; omega
  refine ⟨?_, ?_, ?_, ?_, ?_, ?_⟩
  · simp only [inRangeQuery, decide_eq_true_eq]
    exact ⟨le_refl _, le_trans hse hkey⟩
  · simp only [inRangeQuery, decide_eq_true_eq]
    exact ⟨le_trans hse hkey, le_refl _⟩
  · intro t ht
    simp only [inRangeQuery, decide_eq_false_iff_not, not_and]
    intro hs
    omega
  · intro t ht
    simp only [inRangeQuery, decide_eq_false_iff_not, not_and]
    intro _
    omega
  · intro t
    simp [inRangeQuery, inRangeRealtime, Bool.and_eq_true, decide_eq_true_eq]
  · intro t
    simp [inRangeQuery]

/-- Witness for C6 over the concrete range 2025-03-01 to 2025-03-31. -/
theorem range_inclusivity_witness :
    inRangeQuery (rangeStartKey 2025 3 1) (rangeEndKey 2025 3 31)
        (rangeStartKey 2025 3 1) = true ∧
    inRangeQuery (rangeStartKey 2025 3 1) (rangeEndKey 2025 3 31)
        (rangeEndKey 2025 3 31) = true ∧
    inRangeQuery (rangeStartKey 2025 3 1) (rangeEndKey 2025 3 31)
        (rangeStartKey 2025 3 1 - 1) = false ∧
    inRangeQuery (rangeStartKey 2025 3 1) (rangeEndKey 2025 3 31)
        (rangeEndKey 2025 3 31 + 1) = false := by
  have h := range_inclusivity 2025 3 1 2025 3 31 (by decide)
  exact ⟨h.1, h.2.1, h.2.2.1 _ (by decide), h.2.2.2.1 _ (by decide)⟩

/-! ### Live reconciliation (C4, C5): realtime INSERT/UPDATE handlers and the
optimistic `expense-added` handler -/

/-- Realtime UPDATE payload: identifier and updated timestamp are always
pushed; the remaining columns may be absent from a partial payload. -/
structure UpdatePayload where
  id : Nat
  date : Nat
  user_id : Option Nat
  trip_id : Option (Option Nat)
  amount : Option ℚ
  kind : Option Kind
  category_id : Option (Option Nat)
  note : Option String
deriving DecidableEq, Repr

/-- The object spread `{ ...existingRow, ...newRow }`: every field present in
the pushed payload overrides the previously held field, absent fields keep the
held value. -/
def mergeRow (ex : Exp) (p : UpdatePayload) : Exp :=
  { id := p.id
    user_id := p.user_id.getD ex.user_id
    trip_id := p.trip_id.getD ex.trip_id
    amount := p.amount.getD ex.amount
    kind := p.kind.getD ex.kind
    category_id := p.category_id.getD ex.category_id
    note := p.note.getD ex.note
    date := p.date }

/-- Record built from a payload alone (the `mergedRow = newRow` branch taken
when no row with the identifier is held; the defaults stand for the absent
JS fields and are never observed, because the replace-map below finds no
matching identifier in that branch). -/
def rowOfPayload (p : UpdatePayload) : Exp :=
  { id := p.id
    user_id := p.user_id.getD 0
    trip_id := p.trip_id.getD none
    amount := p.amount.getD 0
    kind := p.kind.getD Kind.expense
    category_id := p.category_id.getD none
    note := p.note.getD ""
    date := p.date }

/-- The realtime UPDATE handler: if the updated timestamp is out of range the
record with the pushed identifier is filtered out; otherwise the payload is
merged over the held row with that identifier and replaces it in place. -/
def applyUpdate (prev : List Exp) (p : UpdatePayload) (sk ek : Nat) : List Exp :=
  if inRangeRealtime sk ek p.date then
    let merged :=
      match prev.find? (fun r => r.id == p.id) with
      | some ex => mergeRow ex p
      | none => rowOfPayload p
    prev.map fun r => if r.id = p.id then merged else r
  else
    prev.filter fun r => r.id ≠ p.id

/-- C4: an update notification whose timestamp falls outside the active range
removes the record with that identifier from the collection entirely; an
in-range update merges the pushed fields over the previously held fields for
that identifier and replaces the old record in place (same position, same
collection length). -/
theorem update_eviction_and_merge (prev : List Exp) (p : UpdatePayload) (sk ek : Nat) :
    (inRangeRealtime sk ek p.date = false →
      ∀ r : Exp, r ∈ applyUpdate prev p sk ek ↔ r ∈ prev ∧ r.id ≠ p.id) ∧
    (inRangeRealtime sk ek p.date = true →
      ∀ ex, prev.find? (fun r => r.id == p.id) = some ex →
        applyUpdate prev p sk ek =
          prev.map (fun r => if r.id = p.id then mergeRow ex p else r) ∧
        mergeRow ex p ∈ applyUpdate prev p sk ek ∧
        (applyUpdate prev p sk ek).length = prev.length) := by
  constructor
  · intro h r
    simp [applyUpdate, h, List.mem_filter]
  · intro h ex hfind
    have hex : ex ∈ prev := List.mem_of_find?_eq_some hfind
    have hid : ex.id = p.id := by
      have := List.find?_some hfind
      simpa using this
    have hmap : applyUpdate prev p sk ek =
        prev.map fun r => if r.id = p.id then mergeRow ex p else r := by
      simp [applyUpdate, h, hfind]
    refine ⟨hmap, ?_, ?_⟩
    · rw [hmap]
      have hm := List.mem_map_of_mem
        (f := fun r => if r.id = p.id then mergeRow ex p else r) hex
      simpa [hid] using hm
    · rw [hmap, List.length_map]

/-- Witness record for the reconciliation theorems. -/
def wExp1 : Exp := ⟨1, 1, none, 50, Kind.expense, some 2, "x", 10⟩

/-- Witness in-range partial payload for id 1. -/
def wPayIn : UpdatePayload := ⟨1, 20, none, none, some 75, none, none, none⟩

/-- Witness out-of-range payload for id 1. -/
def wPayOut : UpdatePayload := ⟨1, 200, none, none, some 75, none, none, none⟩

/-- Witness for C4 at concrete inputs: the merged record is held after an
in-range update, and the record is evicted by an out-of-range update. -/
theorem update_eviction_and_merge_witness :
    mergeRow wExp1 wPayIn ∈ applyUpdate [wExp1] wPayIn 0 100 ∧
    wExp1 ∉ applyUpdate [wExp1] wPayOut 0 100 := by
  constructor
  · exact (((update_eviction_and_merge [wExp1] wPayIn 0 100).2 (by decide))
      wExp1 (by decide)).2.1
  · intro hm
    have h := ((update_eviction_and_merge [wExp1] wPayOut 0 100).1 (by decide)
      wExp1).mp hm
    exact h.2 (by decide)

/-- The realtime INSERT handler: an in-range pushed record is prepended unless
a record with the same identifier is already held; out-of-range pushes are
ignored. -/
def applyInsert (prev : List Exp) (p : Exp) (sk ek : Nat) : List Exp :=
  if inRangeRealtime sk ek p.date then
    if prev.any (fun r => r.id == p.id) then prev else p :: prev
  else prev

/-- The optimistic `expense-added` handler: the inserted row is prepended when
it belongs to the owner, matches the view's trip context and falls in the
active range, unless a record with the same identifier is already held. -/
def applyOptimistic (prev : List Exp) (d : Exp) (u : Nat) (trip : Option Nat)
    (sk ek : Nat) : List Exp :=
  if d.user_id = u ∧ d.trip_id = trip ∧ sk ≤ d.date ∧ d.date ≤ ek then
    if prev.any (fun r => r.id == d.id) then prev else d :: prev
  else prev

/-- C5: applying the same insert twice — optimistic or server-pushed — yields
the same collection as applying it once: a record whose identifier is already
present is not added again. -/
theorem insert_dedup_idempotent (prev : List Exp) (p : Exp) (sk ek u : Nat)
    (trip : Option Nat) :
    applyInsert (applyInsert prev p sk ek) p sk ek = applyInsert prev p sk ek ∧
    applyOptimistic (applyOptimistic prev p u trip sk ek) p u trip sk ek =
      applyOptimistic prev p u trip sk ek := by
  constructor
  · by_cases h1 : inRangeRealtime sk ek p.date
    · by_cases h2 : prev.any (fun r => r.id == p.id)
      · simp [applyInsert, h1, h2]
      · simp [applyInsert, h1, h2, List.any_cons]
    · simp [applyInsert, h1]
  · by_cases h1 : p.user_id = u ∧ p.trip_id = trip ∧ sk ≤ p.date ∧ p.date ≤ ek
    · by_cases h2 : prev.any (fun r => r.id == p.id)
      · simp [applyOptimistic, h1, h2]
      · simp [applyOptimistic, h1, h2, List.any_cons]
    · simp [applyOptimistic, h1]

/-! ### Category deletion (C8): Dashboard `deleteCategory` -/

/-- Lowercasing, the JS `toLowerCase` (character-wise, as a structural map
over the character list so that concrete instances evaluate). -/
def strLower (s : String) : String := String.mk (s.data.map Char.toLower)

/-- Whitespace trim at both ends, the JS `trim`. -/
def strTrim (s : String) : String :=
  String.mk
    (((s.data.dropWhile Char.isWhitespace).reverse.dropWhile Char.isWhitespace).reverse)

/-- The Dashboard `deleteCategory` action over (categories, stored expenses,
locally held expenses).  The fallback category is the first one whose
lowercased name is `other`.  When it exists, all stored expenses referencing
the deleted category are updated to it; when it does not, the storage update
is skipped (`if (otherCategoryId)`).  The category row is then deleted, and
the local expense list maps the reference to `otherCategoryId` — which is
null when no `Other` category exists. -/
def dashDeleteCategory (cats : List Cat) (store localList : List Exp) (catId : Nat) :
    List Cat × List Exp × List Exp :=
  let otherId := (cats.find? (fun c => strLower c.name == "other")).map (·.id)
  let newStore :=
    match otherId with
    | some oid =>
        store.map fun e =>
          if e.category_id = some catId then { e with category_id := some oid } else e
    | none => store
  let newCats := cats.filter fun c => c.id ≠ catId
  let newLocal :=
    localList.map fun e =>
      if e.category_id = some catId then { e with category_id := otherId } else e
  (newCats, newStore, newLocal)

/-- Witness store for the category-deletion theorems: one stored expense
referencing category 99. -/
def wStore : List Exp := [⟨1, 1, none, 50, Kind.expense, some 99, "n", 5⟩]

/-- Counterexample to C8: with no category named `Other`, deleting category 99
leaves the stored expense still referencing the deleted category (the storage
update is skipped), rather than setting the stored reference to null; only
the locally held copy is set to null. -/
theorem category_delete_counterexample :
    ((dashDeleteCategory [⟨99, "Food"⟩] wStore wStore 99).2.1.map (·.category_id) =
        [some 99]) ∧
    ((dashDeleteCategory [⟨99, "Food"⟩] wStore wStore 99).2.2.map (·.category_id) =
        [none]) ∧
    ((dashDeleteCategory [⟨99, "Food"⟩] wStore wStore 99).2.1.map (·.category_id) ≠
        [none]) := by
  refine ⟨?_, ?_, ?_⟩ <;> decide

/-- C8 amended: when a category is deleted and a category named `Other`
exists, every expense referencing it — stored and locally held — is
reassigned to `Other`; when no `Other` category exists, the stored expenses
keep their reference to the deleted category (the storage reassignment is
skipped) and only the locally held expenses have their category reference set
to null.  The category row itself is removed in both cases. -/
theorem category_delete_amended (cats : List Cat) (store localList : List Exp)
    (catId : Nat) :
    (∀ o, cats.find? (fun c => strLower c.name == "other") = some o →
      (dashDeleteCategory cats store localList catId).2.1 =
        store.map (fun e =>
          if e.category_id = some catId then { e with category_id := some o.id } else e) ∧
      (dashDeleteCategory cats store localList catId).2.2 =
        localList.map (fun e =>
          if e.category_id = some catId then { e with category_id := some o.id } else e) ∧
      (o.id ≠ catId →
        ∀ e ∈ (dashDeleteCategory cats store localList catId).2.1,
          e.category_id ≠ some catId)) ∧
    (cats.find? (fun c => strLower c.name == "other") = none →
      (dashDeleteCategory cats store localList catId).2.1 = store ∧
      (dashDeleteCategory cats store localList catId).2.2 =
        localList.map (fun e =>
          if e.category_id = some catId then { e with category_id := none } else e)) ∧
    (dashDeleteCategory cats store localList catId).1 =
      cats.filter (fun c => c.id ≠ catId) := by
  refine ⟨?_, ?_, rfl⟩
  · intro o hfind
    refine ⟨by simp [dashDeleteCategory, hfind], by simp [dashDeleteCategory, hfind], ?_⟩
    intro hne e he
    simp only [dashDeleteCategory, hfind, Option.map_some'] at he
    rw [List.mem_map] at he
    obtain ⟨x, _, rfl⟩ := he
    by_cases hxc : x.category_id = some catId
    · simp [hxc, hne]
    · simp [hxc]
  · intro hfind
    exact ⟨by simp [dashDeleteCategory, hfind], by simp [dashDeleteCategory, hfind]⟩

/-- Witness for C8's amended theorem: with an `Other` category present the
stored expense is reassigned to it. -/
theorem category_delete_amended_witness :
    (dashDeleteCategory [⟨5, "Other"⟩, ⟨99, "Food"⟩] wStore wStore 99).2.1.map
        (·.category_id) = [some 5] ∧
    (dashDeleteCategory [⟨5, "Other"⟩, ⟨99, "Food"⟩] wStore wStore 99).2.2.map
        (·.category_id) = [some 5] := by
  have h := (category_delete_amended [⟨5, "Other"⟩, ⟨99, "Food"⟩] wStore wStore 99).1
    ⟨5, "Other"⟩ (by decide)
  constructor
  · rw [h.1]; decide
  · rw [h.2.1]; decide

/-! ### Keyword categorization fallback (C9): `manualCategorizeByKeyword`
together with the amount/kind/description extraction of
`ExpenseInput.handleSubmit` -/

/-- Substring test: does `sub` occur inside the character list? -/
def containsSub (sub : List Char) : List Char → Bool
  | [] => sub.isPrefixOf ([] : List Char)
  | c :: rest => sub.isPrefixOf (c :: rest) || containsSub sub rest

/-- String containment, the JS `String.includes`. -/
def strContains (s sub : String) : Bool := containsSub sub.data s.data

/-- The fixed keyword-pattern table of `manualCategorizeByKeyword`, in source
order; each regex is an alternation of literal lowercase keywords, so the
case-insensitive test on the lowered text is containment of one of them. -/
def keywordPatterns : List (String × List String) :=
  [("Food", ["food", "eat", "meal", "restaurant", "pizza", "burger", "lunch",
    "breakfast", "dinner", "grocery", "snack", "chips", "chocolate", "coffee", "tea"]),
   ("Transport", ["transport", "taxi", "uber", "bus", "metro", "train", "flight",
    "car", "bike", "fuel", "gas", "parking", "ride"]),
   ("Shopping", ["shop", "buy", "clothes", "dress", "shoes", "shirt", "pants",
    "jacket", "coat", "bag", "purchase"]),
   ("Entertainment", ["movie", "cinema", "game", "concert", "ticket", "show",
    "entertainment", "party", "fun"]),
   ("Bills", ["bill", "electricity", "water", "phone", "internet", "rent",
    "housing", "utility", "subscription", "membership"]),
   ("Healthcare", ["hospital", "doctor", "medicine", "medical", "health",
    "pharmacy", "cure", "treatment"]),
   ("Skincare", ["skincare", "facewash", "lotion", "cream", "soap", "shampoo",
    "conditioner", "deodorant"]),
   ("Other", ["other", "misc", "miscellaneous"])]

/-- Result of the categorization fallback. -/
structure CatResult where
  category : String
  confidence : ℚ
  reasoning : String
deriving DecidableEq, Repr

/-- First keyword pattern (in table order) matching the lowered text whose
category name also exists among the available categories. -/
def findPatternMatch (textLower : String) (cats : List Cat) :
    List (String × List String) → Option CatResult
  | [] => none
  | (name, kws) :: rest =>
      if (kws.any fun kw => strContains textLower kw) &&
          (cats.any fun c => strLower c.name == strLower name) then
        some ⟨name, 7 / 10, "Matched by keyword pattern for " ++ name⟩
      else findPatternMatch textLower cats rest

/-- The JS `split(/\s+/)`: pieces of the string between maximal whitespace
runs (with an empty piece at a boundary run). -/
def wsSplitAux : List Char → Bool → List Char → List String
  | [], _, acc => [String.mk acc.reverse]
  | c :: rest, inRun, acc =>
      if c.isWhitespace then
        if inRun then wsSplitAux rest true acc
        else String.mk acc.reverse :: wsSplitAux rest true []
      else wsSplitAux rest false (c :: acc)

/-- Whitespace word split of a string. -/
def wsSplit (s : String) : List String := wsSplitAux s.data false []

/-- Partial matching against the literal available category names: the first
category one of whose lowered-name/word containments holds in either
direction. -/
def partialNameMatch (textLower : String) : List Cat → Option CatResult
  | [] => none
  | c :: rest =>
      if (wsSplit textLower).any (fun w =>
          strContains w (strLower c.name) || strContains (strLower c.name) w) then
        some ⟨c.name, 6 / 10, "Matched category name in text"⟩
      else partialNameMatch textLower rest

/-- The deterministic keyword fallback `manualCategorizeByKeyword`: ordered
keyword-pattern table first, then partial category-name matching, then the
default `Other` result. -/
def manualCategorizeByKeyword (text : String) (cats : List Cat) : CatResult :=
  let textLower := strLower text
  match findPatternMatch textLower cats keywordPatterns with
  | some r => r
  | none =>
      match partialNameMatch textLower cats with
      | some r => r
      | none => ⟨"Other", 3 / 10, "No matching category found"⟩

/-- First match of the amount regex: a maximal digit run, extended by a dot
and exactly two digits when they follow. -/
def findNumberToken : List Char → Option (List Char)
  | [] => none
  | c :: rest =>
      if c.isDigit then
        let ds := (c :: rest).takeWhile Char.isDigit
        let tail := (c :: rest).dropWhile Char.isDigit
        match tail with
        | '.' :: d1 :: d2 :: _ =>
            if d1.isDigit && d2.isDigit then some (ds ++ ['.', d1, d2]) else some ds
        | _ => some ds
      else findNumberToken rest

/-- Digit-run value. -/
def parseDigits (ds : List Char) : Nat :=
  ds.foldl (fun n c => n * 10 + (c.toNat - '0'.toNat)) 0

/-- Numeric value of a matched amount token. -/
def tokenToRat (t : List Char) : ℚ :=
  let intPart := t.takeWhile (· ≠ '.')
  let rest := t.dropWhile (· ≠ '.')
  match rest with
  | _ :: fs => (parseDigits intPart : ℚ) + (parseDigits fs : ℚ) / 100
  | [] => (parseDigits intPart : ℚ)

/-- Amount extraction of `handleSubmit`: the first numeric token of the text,
as a number (`none` models the missing-amount failure message). -/
def extractAmount (text : String) : Option ℚ :=
  (findNumberToken text.data).map tokenToRat

/-- Kind inference of `handleSubmit`: a `borr` substring means borrowed, else
a `len`/`lend` substring means lended, else expense; check order is fixed. -/
def inferKind (text : String) : Kind :=
  let tl := strLower text
  if strContains tl "borr" then Kind.borrowed
  else if strContains tl "len" || strContains tl "lend" then Kind.lended
  else Kind.expense

/-- Leading-amount strip of the description extraction: remove
`^\d+(?:\.\d{2})?\s*` once. -/
def stripLeadingAmount (l : List Char) : List Char :=
  match l with
  | [] => []
  | c :: _ =>
      if c.isDigit then
        let ds := l.dropWhile Char.isDigit
        let rest :=
          match ds with
          | '.' :: d1 :: d2 :: tl => if d1.isDigit && d2.isDigit then tl else ds
          | _ => ds
        rest.dropWhile Char.isWhitespace
      else l

/-- Description extraction of `handleSubmit`: the trimmed text with the
leading amount token stripped; the resolved category name when empty. -/
def extractDescription (text : String) (categoryName : String) : String :=
  let d := strTrim (String.mk (stripLeadingAmount (strTrim text).data))
  if d = "" then categoryName else d

/-- C9: the keyword fallback is a pure function — the same text and category
list always give the same result — and on input `"250 lunch with friends"`
with categories Food and Other it resolves to category `Food` via the keyword
pattern, amount 250, kind `expense`, and description `"lunch with friends"`. -/
theorem categorization_fallback_scenario :
    (∀ (text : String) (cats : List Cat),
      manualCategorizeByKeyword text cats = manualCategorizeByKeyword text cats) ∧
    (manualCategorizeByKeyword "250 lunch with friends"
        [⟨1, "Food"⟩, ⟨2, "Other"⟩]).category = "Food" ∧
    (manualCategorizeByKeyword "250 lunch with friends"
        [⟨1, "Food"⟩, ⟨2, "Other"⟩]).reasoning = "Matched by keyword pattern for Food" ∧
    extractAmount "250 lunch with friends" = some 250 ∧
    inferKind "250 lunch with friends" = Kind.expense ∧
    extractDescription "250 lunch with friends" "Food" = "lunch with friends" := by
  refine ⟨fun _ _ => rfl, ?_, ?_, ?_, ?_, ?_⟩ <;> decide

/-! ### Bulk load limit (C10): `loadRange`'s query with
`.order('date', { ascending: false }).limit(1000)` -/

/-- Row filter of the bulk query: owner, inclusive timestamp range, and trip
context (`eq` on the trip id, or `is null` for the casual view). -/
def expMatch (u : Nat) (trip : Option Nat) (sk ek : Nat) (r : Exp) : Bool :=
  decide (r.user_id = u ∧ sk ≤ r.date ∧ r.date ≤ ek ∧ r.trip_id = trip)

/-- Date-descending order of the bulk query. -/
def dateDesc (a b : Exp) : Prop := b.date ≤ a.date

instance : DecidableRel dateDesc := fun a b => Nat.decLe b.date a.date

instance : IsTotal Exp dateDesc := ⟨fun a b => Nat.le_total b.date a.date⟩

instance : IsTrans Exp dateDesc := ⟨fun _ _ _ hab hbc => le_trans hbc hab⟩

/-- The bulk load: the matching rows, ordered by timestamp descending,
truncated to the first 1000. -/
def loadRange (db : List Exp) (u : Nat) (trip : Option Nat) (sk ek : Nat) :
    List Exp :=
  (List.insertionSort dateDesc (db.filter (expMatch u trip sk ek))).take 1000

/-- C10: every bulk load returns at most 1000 records; a matching record left
out of the collection is no newer than any loaded record (the most recent by
timestamp descending are kept); when more than 1000 records match, strictly
fewer records are loaded than match; and the grand total spent — hence the
balance and every per-category total — is computed from the loaded collection
alone. -/
theorem bulk_load_limit (db : List Exp) (u : Nat) (trip : Option Nat)
    (sk ek : Nat) (cats : List Cat) :
    (loadRange db u trip sk ek).length ≤ 1000 ∧
    (∀ r ∈ db.filter (expMatch u trip sk ek), r ∉ loadRange db u trip sk ek →
      ∀ q ∈ loadRange db u trip sk ek, r.date ≤ q.date) ∧
    ((db.filter (expMatch u trip sk ek)).length > 1000 →
      (loadRange db u trip sk ek).length < (db.filter (expMatch u trip sk ek)).length) ∧
    totalSpent (loadRange db u trip sk ek) cats =
      amountsOfKind Kind.expense (loadRange db u trip sk ek) := by
  have hlen : (loadRange db u trip sk ek).length ≤ 1000 := by
    unfold loadRange
    exact List.length_take_le 1000 _
  refine ⟨hlen, ?_, ?_, totalSpent_eq_amounts _ _⟩
  · intro r hrF hrNot q hq
    have hperm : List.Perm
        (List.insertionSort dateDesc (db.filter (expMatch u trip sk ek)))
        (db.filter (expMatch u trip sk ek)) := List.perm_insertionSort _ _
    have hrS : r ∈ List.insertionSort dateDesc (db.filter (expMatch u trip sk ek)) :=
      hperm.mem_iff.mpr hrF
    have hsplit := List.take_append_drop 1000
      (List.insertionSort dateDesc (db.filter (expMatch u trip sk ek)))
    have hrDrop : r ∈ (List.insertionSort dateDesc
        (db.filter (expMatch u trip sk ek))).drop 1000 := by
      rw [← hsplit] at hrS
      rcases List.mem_append.mp hrS with h | h
      · exact absurd h hrNot
      · exact h
    have hsorted := List.sorted_insertionSort dateDesc
      (db.filter (expMatch u trip sk ek))
    rw [← hsplit] at hsorted
    have hcross := (List.pairwise_append.mp hsorted).2.2
    exact hcross q hq r hrDrop
  · intro hgt
    exact lt_of_le_of_lt hlen hgt

set_option maxRecDepth 40000

/-- Witness database of 1001 matching records, timestamps descending. -/
def bigDb : List Exp :=
  (List.range 1001).map fun i => ⟨i, 1, none, 1, Kind.expense, none, "", 2000 - i⟩

/-- Witness for C10: in a range matched by 1001 records the load is strictly
smaller than the match set, and the record left out is no newer than a loaded
one. -/
theorem bulk_load_limit_witness :
    (⟨1000, 1, none, 1, Kind.expense, none, "", 1000⟩ : Exp).date ≤
      (⟨0, 1, none, 1, Kind.expense, none, "", 2000⟩ : Exp).date ∧
    (loadRange bigDb 1 none 0 3000).length <
      (bigDb.filter (expMatch 1 none 0 3000)).length := by
  have h := bulk_load_limit bigDb 1 none 0 3000 []
  constructor
  · exact h.2.1 _ (by decide) (by decide) _ (by decide)
  · exact h.2.2.1 (by decide)

end ExpenseTracker
